import Mathlib

/-!
Verification of the ReinaManager save-data backup / path-resolution /
play-statistics subsystem (Rust, Tauri).  The Rust sources are shallowly
embedded: pure control flow is translated function-by-function, filesystem
state is passed explicitly as data, and fallible operations return
`Except String`.  Machine integers (`i32`, `i64`) carry no overflowing
arithmetic in the embedded code paths, so they are modelled as `Int`.
-/

namespace ReinaManager

/-! ## Statistics aggregator (game_stats_repository.rs) -/

/-- `DailyStats` from game_stats_repository.rs: one day key plus seconds
played on that day. -/
structure DailyStats where
  date : String
  playtime : Int
deriving DecidableEq, Repr

/-- The persisted `daily_stats` column is a JSON string produced by
serde_json from a list of `DailyStats`.  The byte-level JSON text is
abstracted: a payload is either the faithful image of a well-formed list
(what serde_json::to_string produces — serialization of a plain struct
list cannot fail) or an arbitrary malformed text. -/
inductive DailyPayload where
  | json (stats : List DailyStats)
  | malformed (raw : String)
deriving DecidableEq, Repr

/-- Models `serde_json::to_string(&daily_stats)`: always succeeds and is
inverted exactly by deserialization. -/
def serdeToString (stats : List DailyStats) : DailyPayload :=
  DailyPayload.json stats

/-- One row of the `game_statistics` table (entity used by
game_stats_repository.rs): every non-key column is nullable. -/
structure GameStatisticsRow where
  game_id : Int
  total_time : Option Int
  session_count : Option Int
  last_played : Option Int
  daily_stats : Option DailyPayload
deriving DecidableEq, Repr

/-- The `game_statistics` table: a list of rows (primary key uniqueness is
never needed below; lookups mirror `find_by_id`, which returns the first
row with the key). -/
abbrev StatsDb : Type := List GameStatisticsRow

/-- `GameStatistics::find_by_id(game_id).one(db)`. -/
def findById (db : StatsDb) (game_id : Int) : Option GameStatisticsRow :=
  db.find? (fun r => r.game_id = game_id)

/-- `GameStatsRepository::parse_daily_stats`: deserialization fails loudly
on a malformed payload, succeeds on a well-formed one. -/
def parse_daily_stats (payload : DailyPayload) : Except String (List DailyStats) :=
  match payload with
  | DailyPayload.json stats => Except.ok stats
  | DailyPayload.malformed raw => Except.error ("Failed to parse daily_stats: " ++ raw)

/-- `GameStatsRepository::update_statistics`: serializes `daily_stats`,
then upserts — if a row for `game_id` exists, overwrites its
total_time / session_count / last_played / daily_stats wholesale,
otherwise inserts a fresh row.  Database I/O errors are outside the
model; the embedded function returns the updated table. -/
def update_statistics (db : StatsDb) (game_id : Int) (total_time : Int)
    (session_count : Int) (last_played : Option Int)
    (daily_stats : List DailyStats) : Except String StatsDb :=
  let daily_stats_json := serdeToString daily_stats
  match findById db game_id with
  | some _ =>
      Except.ok (db.map (fun r =>
        if r.game_id = game_id then
          GameStatisticsRow.mk game_id (some total_time) (some session_count)
            last_played (some daily_stats_json)
        else r))
  | none =>
      Except.ok (db ++
        [GameStatisticsRow.mk game_id (some total_time) (some session_count)
          last_played (some daily_stats_json)])

/-- `GameStatsRepository::get_statistics`. -/
def get_statistics (db : StatsDb) (game_id : Int) : Option GameStatisticsRow :=
  findById db game_id

/-- The `for stat in daily_stats { if stat.date == today { return Ok(stat.playtime) } }`
loop of `get_today_playtime`: playtime of the first entry for `today`,
else 0. -/
def firstPlaytime (stats : List DailyStats) (today : String) : Int :=
  match stats.find? (fun s => s.date = today) with
  | some s => s.playtime
  | none => 0

/-- `GameStatsRepository::get_today_playtime`: missing row or missing
column yields 0; a malformed payload propagates the parse error; otherwise
the first entry whose date equals `today` decides the result. -/
def get_today_playtime (db : StatsDb) (game_id : Int) (today : String) :
    Except String Int :=
  match get_statistics db game_id with
  | none => Except.ok 0
  | some stats =>
      match stats.daily_stats with
      | none => Except.ok 0
      | some daily_stats_json =>
          match parse_daily_stats daily_stats_json with
          | Except.error e => Except.error e
          | Except.ok daily_stats => Except.ok (firstPlaytime daily_stats today)

/-- Sum of the per-day playtimes of a daily-stats list (the quantity the
spec's invariant compares `total_time` against). -/
def sumPlaytime (stats : List DailyStats) : Int :=
  (stats.map (fun s => s.playtime)).sum

/-- At most one entry per distinct date key. -/
def datesNodup (stats : List DailyStats) : Prop :=
  (stats.map (fun s => s.date)).Nodup

instance (stats : List DailyStats) : Decidable (datesNodup stats) := by
  unfold datesNodup
  infer_instance

/-! ## Path resolver and path cache (utils/fs.rs) -/

/-- Path constant `DB_DATA_DIR`. -/
def DB_DATA_DIR : String := "data"

/-- Path constant `DB_FILE_NAME`. -/
def DB_FILE_NAME : String := "reina_manager.db"

/-- Path constant `DB_BACKUP_SUBDIR`. -/
def DB_BACKUP_SUBDIR : String := "backups"

/-- Path constant `RESOURCE_DIR`. -/
def RESOURCE_DIR : String := "resources"

/-- Filesystem paths are modelled as component lists; `PathBuf::join` of a
single component is list append. -/
abbrev FsPath : Type := List String

/-- The filesystem state the resolver observes: the set (list) of
currently existing paths.  `Path::exists` is membership. -/
abbrev PathFs : Type := List FsPath

/-- The two platform queries of the Tauri `AppHandle` used by fs.rs:
`app.path().resource_dir()` and `app.path().app_data_dir()`, each of which
can fail with a platform error. -/
structure AppHandle where
  resource_dir : Except String FsPath
  app_data_dir : Except String FsPath
deriving Repr

/-- `is_portable_mode`: portable iff `resource_dir()` succeeds and both
`resources/data` and `resources/data/reina_manager.db` under it exist. -/
def is_portable_mode (app : AppHandle) (fs : PathFs) : Bool :=
  match app.resource_dir with
  | Except.ok rd =>
      let portable_data_dir := rd ++ [RESOURCE_DIR, DB_DATA_DIR]
      let portable_db_file := portable_data_dir ++ [DB_FILE_NAME]
      decide (portable_data_dir ∈ fs) && decide (portable_db_file ∈ fs)
  | Except.error _ => false

/-- `get_base_data_dir`: re-evaluates `is_portable_mode` on the current
filesystem state at every call; portable yields `resource_dir()/resources`,
standard yields the platform app-data directory. -/
def get_base_data_dir (app : AppHandle) (fs : PathFs) : Except String FsPath :=
  if is_portable_mode app fs then
    match app.resource_dir with
    | Except.ok rd => Except.ok (rd ++ [RESOURCE_DIR])
    | Except.error e => Except.error ("无法获取应用目录: " ++ e)
  else
    match app.app_data_dir with
    | Except.ok d => Except.ok d
    | Except.error e => Except.error ("无法获取应用数据目录: " ++ e)

/-- The singleton `user` settings row as read by the resolver: the two
optional override columns. -/
structure UserRow where
  db_backup_path : Option String
  save_root_path : Option String
deriving DecidableEq, Repr

/-- `PathManager`'s in-memory `PathCache`. -/
structure PathCache where
  db_backup_path : Option FsPath
  savedata_backup_path : Option FsPath
deriving DecidableEq, Repr

/-- `PathCache::default()`: both entries empty. -/
def PathCache.empty : PathCache := PathCache.mk none none

/-- `s.trim().is_empty()`: a string is blank when all of its characters
are whitespace. -/
def isBlank (s : String) : Bool :=
  s.toList.all (fun c => c.isWhitespace)

/-- `PathManager::get_save_root_path_from_db`: the override column of the
single user row, with empty or whitespace-only strings treated as absent
(`.filter(|s| !s.trim().is_empty())`). -/
def get_save_root_path_from_db (user : Option UserRow) : Option String :=
  match user.bind (fun u => u.save_root_path) with
  | some s => if isBlank s then none else some s
  | none => none

/-- `PathManager::get_default_savedata_backup_path`:
`get_base_data_dir()/backups`. -/
def get_default_savedata_backup_path (app : AppHandle) (fs : PathFs) :
    Except String FsPath :=
  match get_base_data_dir app fs with
  | Except.ok base => Except.ok (base ++ ["backups"])
  | Except.error e => Except.error e

/-- `PathManager::get_savedata_backup_path`: cache hit returns the cached
path unchanged; on a miss, a non-blank user override `custom` resolves to
`PathBuf::from(custom).join("backups")` (the override string is one path
component here), otherwise the mode-based default is computed; the result
is stored in the cache before returning. -/
def get_savedata_backup_path (cache : PathCache) (app : AppHandle)
    (fs : PathFs) (user : Option UserRow) :
    PathCache × Except String FsPath :=
  match cache.savedata_backup_path with
  | some p => (cache, Except.ok p)
  | none =>
      match get_save_root_path_from_db user with
      | some custom =>
          let p := [custom] ++ ["backups"]
          (PathCache.mk cache.db_backup_path (some p), Except.ok p)
      | none =>
          match get_default_savedata_backup_path app fs with
          | Except.ok p =>
              (PathCache.mk cache.db_backup_path (some p), Except.ok p)
          | Except.error e => (cache, Except.error e)

/-- `PathManager::clear_cache`: resets the whole cache to default. -/
def clear_cache (_cache : PathCache) : PathCache := PathCache.empty

/-! ## Backup orchestrator: deletion (backup/savedata.rs) -/

/-- For `delete_savedata_backup` the path is manipulated character-wise
(`String::replace` on a `char`), so here a path is a character list. -/
abbrev CharPath : Type := List Char

/-- `backup_file_path.replace('/', "\\")` — every forward slash becomes a
backslash, unconditionally. -/
def normalizeSeparators : CharPath → CharPath
  | [] => []
  | c :: rest =>
      (if c = '/' then ['\\'] else [c]) ++ normalizeSeparators rest

/-- Modelled from the spec: "performs path separator normalization to the
host convention" — rewriting of both separator characters to the
separator character `hostSep` of the platform the process runs on
('/' on POSIX hosts, '\\' on Windows).  The repository has no such
host-parametric function; this definition exists to compare the code's
normalization against the spec's words. -/
def normalizeToHostSep (hostSep : Char) : CharPath → CharPath
  | [] => []
  | c :: rest =>
      (if c = '/' ∨ c = '\\' then [hostSep] else [c]) ++ normalizeToHostSep hostSep rest

/-- The filesystem as seen by deletion: the list of existing files. -/
abbrev DeleteFs : Type := List CharPath

/-- The tail of `delete_savedata_backup` after normalization: existence
check, then `fs::remove_file` (removal of an existing file is modelled as
succeeding; I/O fault injection is out of scope). -/
def deleteNormalizedBackup (fs : DeleteFs) (backup_path : CharPath) :
    DeleteFs × Except String Unit :=
  if backup_path ∈ fs then
    (fs.filter (fun q => q ≠ backup_path), Except.ok ())
  else
    (fs, Except.error "备份文件不存在")

/-- `delete_savedata_backup`: replaces every '/' with '\\', errors when
the normalized path does not exist, otherwise removes the file. -/
def delete_savedata_backup (fs : DeleteFs) (backup_file_path : CharPath) :
    DeleteFs × Except String Unit :=
  let normalized_path := normalizeSeparators backup_file_path
  if normalized_path ∈ fs then
    (fs.filter (fun q => q ≠ normalized_path), Except.ok ())
  else
    (fs, Except.error "备份文件不存在")

/-! ## Backup orchestrator: creation (backup/savedata.rs) -/

/-- Filesystem state for backup creation: the directories that exist and
the files that exist (with their sizes in bytes). -/
structure BackupFs where
  dirs : List FsPath
  files : List (FsPath × Nat)
deriving Repr

/-- `Path::exists`. -/
def BackupFs.existsPath (fs : BackupFs) (p : FsPath) : Bool :=
  decide (p ∈ fs.dirs) || fs.files.any (fun f => f.1 = p)

/-- `Path::is_dir`. -/
def BackupFs.isDir (fs : BackupFs) (p : FsPath) : Bool :=
  decide (p ∈ fs.dirs)

/-- All non-empty leading segments of a path, the directories
`fs::create_dir_all` guarantees to exist afterwards. -/
def ancestorsOf (p : FsPath) : List FsPath :=
  (List.range p.length).map (fun i => p.take (i + 1))

/-- `fs::create_dir_all`: afterwards the path and all its ancestors
exist. -/
def BackupFs.mkDirAll (fs : BackupFs) (p : FsPath) : BackupFs :=
  BackupFs.mk (fs.dirs ++ ancestorsOf p) fs.files

/-- Adding a regular file of a given size. -/
def BackupFs.addFile (fs : BackupFs) (p : FsPath) (size : Nat) : BackupFs :=
  BackupFs.mk fs.dirs (fs.files ++ [(p, size)])

/-- `BackupInfo` returned by `create_savedata_backup` (the
`to_string_lossy` rendering of the backup path is kept as a component
list). -/
structure BackupInfo where
  folder_name : String
  backup_time : Int
  file_size : Nat
  backup_path : FsPath
deriving DecidableEq, Repr

/-- Environment oracle for the two effectful steps of backup creation
whose outcome the claims quantify over: `fs::create_dir_all` may fail
with an I/O error, and `create_7z_archive` either fails or yields the
size of the written archive.  The entry-by-entry behaviour of the archive
writer is modelled separately (see `add_directory_to_archive` below);
here only its success/failure and resulting file matter. -/
structure CreateOracle where
  mkdir_result : Option String
  archive_result : Except String Nat
deriving Repr

/-- `create_savedata_backup`: validates the source (exists, is a
directory), creates `backup_root/game_{game_id}`, writes
`savedata_{game_id}_{timestamp}.7z` inside it via the archive writer, and
returns the `BackupInfo`.  `now_ts` is `Utc::now().timestamp()` and
`now_fmt` the formatted `%Y%m%d_%H%M%S` timestamp. -/
def create_savedata_backup (fs : BackupFs) (game_id : Int)
    (source_path backup_root_dir : FsPath) (now_ts : Int) (now_fmt : String)
    (o : CreateOracle) : BackupFs × Except String BackupInfo :=
  if ¬ fs.existsPath source_path then
    (fs, Except.error "源存档文件夹不存在")
  else if ¬ fs.isDir source_path then
    (fs, Except.error "源路径必须是一个文件夹")
  else
    let game_backup_dir := backup_root_dir ++ ["game_" ++ toString game_id]
    match o.mkdir_result with
    | some e => (fs, Except.error ("创建备份目录失败: " ++ e))
    | none =>
        let fs1 := fs.mkDirAll game_backup_dir
        let backup_filename :=
          "savedata_" ++ toString game_id ++ "_" ++ now_fmt ++ ".7z"
        let backup_file_path := game_backup_dir ++ [backup_filename]
        match o.archive_result with
        | Except.error e =>
            (fs1.addFile backup_file_path 0,
             Except.error ("创建压缩包失败: " ++ e))
        | Except.ok backup_size =>
            (fs1.addFile backup_file_path backup_size,
             Except.ok (BackupInfo.mk backup_filename now_ts backup_size
               backup_file_path))

/-! ## Generic filesystem helper: move_backup_folder (utils/fs.rs) -/

/-- `MoveResult` from utils/fs.rs: in-band success flag plus message. -/
structure MoveResult where
  success : Bool
  message : String
deriving DecidableEq, Repr

/-- `base` is a leading segment of `p` (so `p` lies inside the tree rooted
at `base`). -/
def leadsWith : FsPath → FsPath → Bool
  | [], _ => true
  | _ :: _, [] => false
  | a :: as_, b :: bs => a = b && leadsWith as_ bs

/-- Filesystem state for the move helper: the list of existing paths
(directories and files alike; a path's tree is every existing path it
leads). -/
abbrev MoveFs : Type := List FsPath

/-- `Path::exists` for the move helper; the filesystem root (the empty
path) always exists. -/
def moveExists (fs : MoveFs) (p : FsPath) : Bool :=
  p.isEmpty || decide (p ∈ fs)

/-- Effect of a successful `fs::rename(old, new)`: every path under `old`
is re-rooted under `new`. -/
def renameTree (fs : MoveFs) (old_path new_path : FsPath) : MoveFs :=
  fs.map (fun p =>
    if leadsWith old_path p then new_path ++ p.drop old_path.length else p)

/-- Effect of a successful recursive `copy_dir_all(old, new)`: the tree
under `old` additionally appears re-rooted under `new`. -/
def copyTree (fs : MoveFs) (old_path new_path : FsPath) : MoveFs :=
  fs ++ fs.filterMap (fun p =>
    if leadsWith old_path p then some (new_path ++ p.drop old_path.length)
    else none)

/-- Effect of a successful `fs::remove_dir_all(old)`: the tree under
`old` is gone. -/
def removeTree (fs : MoveFs) (old_path : FsPath) : MoveFs :=
  fs.filter (fun p => ¬ leadsWith old_path p)

/-- Adds a directory and its ancestors (`fs::create_dir_all` for the
move helper's flat path-set state). -/
def moveMkDirAll (fs : MoveFs) (p : FsPath) : MoveFs :=
  fs ++ ancestorsOf p

/-- Outcome oracle for the four effectful steps of `move_backup_folder`
whose success the code branches on: parent-directory creation, the atomic
rename, the recursive copy, and the removal of the source after a copy.
`none` means the step succeeds; `some e` is the I/O error text. -/
structure MoveOracle where
  mkparent_result : Option String
  rename_result : Option String
  copy_result : Option String
  remove_result : Option String
deriving Repr

/-- The parent-creation step of `move_backup_folder`: when the parent of
the destination does not exist, `fs::create_dir_all` is attempted; its
failure text (if any) is carried alongside the possibly-extended
filesystem. -/
def moveCreateParent (fs : MoveFs) (parent : FsPath) (mkparent : Option String) :
    MoveFs × Option String :=
  if ¬ moveExists fs parent then
    match mkparent with
    | some e => (fs, some ("无法创建目标目录: " ++ e))
    | none => (moveMkDirAll fs parent, none)
  else (fs, none)

/-- `move_backup_folder(old_path, new_path)`: success no-op when the old
folder is missing; creates the missing parent of the destination; refuses
an existing destination in-band; then renames, falling back to
copy-then-delete-source.  Every branch of the Rust function returns
`Ok(MoveResult { .. })`; the `Err` side of its `Result` type is kept in
the model's return type to show it is never used. -/
def move_backup_folder (fs : MoveFs) (old_path new_path : FsPath)
    (o : MoveOracle) : MoveFs × Except String MoveResult :=
  if ¬ moveExists fs old_path then
    (fs, Except.ok (MoveResult.mk true "旧备份文件夹不存在，无需移动"))
  else
    match moveCreateParent fs new_path.dropLast o.mkparent_result with
    | (fs1, some msg) => (fs1, Except.ok (MoveResult.mk false msg))
    | (fs1, none) =>
        if moveExists fs1 new_path then
          (fs1, Except.ok (MoveResult.mk false "目标位置已存在备份文件夹，请手动处理"))
        else
          match o.rename_result with
          | none =>
              (renameTree fs1 old_path new_path,
               Except.ok (MoveResult.mk true "备份文件夹移动成功"))
          | some _ =>
              match o.copy_result with
              | some e =>
                  (fs1, Except.ok (MoveResult.mk false ("移动文件夹失败: " ++ e)))
              | none =>
                  match o.remove_result with
                  | none =>
                      (removeTree (copyTree fs1 old_path new_path) old_path,
                       Except.ok (MoveResult.mk true "备份文件夹移动成功（通过复制）"))
                  | some e =>
                      (copyTree fs1 old_path new_path,
                       Except.ok (MoveResult.mk false
                        ("文件夹已复制到新位置，但删除旧文件夹失败: " ++ e)))

/-! ## Archive writer (backup/savedata.rs) -/

/-- A directory listing as `fs::read_dir` yields it: each entry is a named
regular file (with its byte content) or a named subdirectory. -/
inductive DirListing where
  | nil : DirListing
  | consFile (name : String) (content : List Nat) (rest : DirListing) : DirListing
  | consDir (name : String) (sub : DirListing) (rest : DirListing) : DirListing
deriving DecidableEq, Repr

/-- The in-archive name built by `add_directory_to_archive`:
`format!("{}/{}", archive_prefix, file_name)` unless the running prefix
is still empty. -/
def archiveJoin (pre name : String) : String :=
  if pre = "" then name else pre ++ "/" ++ name

/-- `add_directory_to_archive`: walks the listing in order, pushing one
archive entry (name, byte content) per regular file and recursing into
subdirectories with the extended prefix.  The `SevenZWriter` is modelled
by the entry list it accumulates. -/
def add_directory_to_archive : DirListing → String → List (String × List Nat)
  | DirListing.nil, _ => []
  | DirListing.consFile name content rest, pre =>
      (archiveJoin pre name, content) :: add_directory_to_archive rest pre
  | DirListing.consDir name sub rest, pre =>
      add_directory_to_archive sub (archiveJoin pre name) ++
        add_directory_to_archive rest pre

/-- `create_7z_archive`, at the level of archive contents: the container
written for a source tree holds exactly the entries pushed while walking
the tree from the empty prefix (the sevenz writer/extractor round-trip on
its entry list is the external library's contract). -/
def create_7z_archive_entries (source_dir : DirListing) : List (String × List Nat) :=
  add_directory_to_archive source_dir ""

/-- The specification-side view: the regular files under a tree with
their relative paths as component lists (`[..dirs.., filename]`), in
listing order; empty directories contribute nothing. -/
def relFiles : DirListing → List (List String × List Nat)
  | DirListing.nil => []
  | DirListing.consFile name content rest => ([name], content) :: relFiles rest
  | DirListing.consDir name sub rest =>
      (relFiles sub).map (fun pc => (name :: pc.1, pc.2)) ++ relFiles rest

/-- POSIX rendering of a relative path: components joined by '/'. -/
def renderPosix : List String → String
  | [] => ""
  | [n] => n
  | n :: rest => n ++ "/" ++ renderPosix rest

/-- Real directory entries never carry an empty name; `read_dir` cannot
produce one. -/
def namesNonempty : DirListing → Bool
  | DirListing.nil => true
  | DirListing.consFile name _ rest => name ≠ "" && namesNonempty rest
  | DirListing.consDir name sub rest =>
      name ≠ "" && namesNonempty sub && namesNonempty rest

/-! ## Helper lemmas -/

theorem findById_map_replace (db : StatsDb) (gid : Int) (row : GameStatisticsRow)
    (hrow : row.game_id = gid) (h : (findById db gid).isSome = true) :
    findById (db.map (fun r => if r.game_id = gid then row else r)) gid = some row := by
  induction db with
  | nil => simp [findById] at h
  | cons r rest ih =>
      by_cases hr : r.game_id = gid
      · simp [findById, List.find?_cons, hr, hrow]
      · simp only [findById, List.map_cons, if_neg hr] at *
        rw [List.find?_cons_of_neg _ (by simpa using hr)] at h ⊢
        exact ih h

theorem findById_append_of_none (db : StatsDb) (gid : Int) (row : GameStatisticsRow)
    (hrow : row.game_id = gid) (h : findById db gid = none) :
    findById (db ++ [row]) gid = some row := by
  induction db with
  | nil => simp [findById, List.find?_cons, hrow]
  | cons r rest ih =>
      by_cases hr : r.game_id = gid
      · simp [findById, List.find?_cons, hr] at h
      · simp only [findById, List.cons_append] at *
        rw [List.find?_cons_of_neg _ (by simpa using hr)] at h ⊢
        exact ih h

theorem update_statistics_findById (db : StatsDb) (gid total_time session_count : Int)
    (last_played : Option Int) (daily_stats : List DailyStats) (db' : StatsDb)
    (h : update_statistics db gid total_time session_count last_played daily_stats =
      Except.ok db') :
    findById db' gid =
      some (GameStatisticsRow.mk gid (some total_time) (some session_count)
        last_played (some (DailyPayload.json daily_stats))) := by
  unfold update_statistics at h
  cases hfind : findById db gid with
  | some r =>
      simp only [hfind, Except.ok.injEq] at h
      subst h
      exact findById_map_replace db gid _ rfl (by simp [hfind])
  | none =>
      simp only [hfind, Except.ok.injEq] at h
      subst h
      exact findById_append_of_none db gid _ rfl hfind

/-! ## Claim C2 -/

/-- C2 counterexample: a successful `update_statistics` call that supplies
`total_time = 120` together with a daily-stats list summing to 60 stores a
row whose `total_time` differs from the sum of its `daily_stats`
playtimes, so the claimed invariant does not hold after every completed
merge — the repository persists whatever the caller sends. -/
theorem update_statistics_sum_invariant_cex :
    update_statistics [] 1 120 2 (some 1700000000) [DailyStats.mk "2024-01-01" 60] =
      Except.ok [GameStatisticsRow.mk 1 (some 120) (some 2) (some 1700000000)
        (some (DailyPayload.json [DailyStats.mk "2024-01-01" 60]))] ∧
    findById [GameStatisticsRow.mk 1 (some 120) (some 2) (some 1700000000)
        (some (DailyPayload.json [DailyStats.mk "2024-01-01" 60]))] 1 =
      some (GameStatisticsRow.mk 1 (some 120) (some 2) (some 1700000000)
        (some (DailyPayload.json [DailyStats.mk "2024-01-01" 60]))) ∧
    sumPlaytime [DailyStats.mk "2024-01-01" 60] = 60 ∧ (120 : Int) ≠ 60 :=
  ⟨rfl, rfl, rfl, by decide⟩

/-- C2 (amended): `update_statistics` is a wholesale replace — after a
successful call the stored row for `game_id` holds exactly the
caller-supplied total_time / session_count / last_played / daily_stats, so
the invariant (total equals the daily sum, at most one entry per date,
totals never decreasing) holds after the call exactly when the caller's
arguments satisfy it; the repository itself enforces no arithmetic. -/
theorem update_statistics_replace_semantics (db : StatsDb)
    (gid total_time session_count : Int) (last_played : Option Int)
    (daily_stats : List DailyStats) (db' : StatsDb)
    (h : update_statistics db gid total_time session_count last_played daily_stats =
      Except.ok db') :
    findById db' gid =
      some (GameStatisticsRow.mk gid (some total_time) (some session_count)
        last_played (some (DailyPayload.json daily_stats))) ∧
    (total_time = sumPlaytime daily_stats →
      findById db' gid =
        some (GameStatisticsRow.mk gid (some (sumPlaytime daily_stats))
          (some session_count) last_played (some (DailyPayload.json daily_stats)))) ∧
    (datesNodup daily_stats →
      ∃ stored, findById db' gid = some stored ∧
        stored.daily_stats = some (DailyPayload.json daily_stats) ∧
        datesNodup daily_stats) := by
  have hmain := update_statistics_findById db gid total_time session_count
    last_played daily_stats db' h
  refine ⟨hmain, ?_, ?_⟩
  · intro ht
    rw [hmain, ht]
  · intro hnd
    exact ⟨_, hmain, rfl, hnd⟩

/-- Witness for C2's amended theorem at a concrete call whose arguments do
satisfy the invariant. -/
theorem update_statistics_replace_semantics_witness :
    findById ((update_statistics [] 1 120 2 (some 1700000000)
        [DailyStats.mk "2024-01-01" 60, DailyStats.mk "2024-01-02" 60]).toOption.getD [])
      1 =
      some (GameStatisticsRow.mk 1 (some 120) (some 2) (some 1700000000)
        (some (DailyPayload.json
          [DailyStats.mk "2024-01-01" 60, DailyStats.mk "2024-01-02" 60]))) :=
  (update_statistics_replace_semantics [] 1 120 2 (some 1700000000)
    [DailyStats.mk "2024-01-01" 60, DailyStats.mk "2024-01-02" 60] _ rfl).1

/-! ## Claim C9 -/

/-- C9: after `update_statistics` stores a daily-stats list, querying
`get_today_playtime` returns the playtime of the (first) entry whose date
equals the requested key, 0 when no entry matches, and 0 when no
statistics row exists at all; an error can arise only from a malformed
persisted payload, never from a missing key.  In particular, for the
stored example list the claim's two sample queries return 60 and 0 (see
the witness). -/
theorem get_today_playtime_spec (db : StatsDb)
    (gid total_time session_count : Int) (last_played : Option Int)
    (daily_stats : List DailyStats) (db' : StatsDb) (today : String)
    (h : update_statistics db gid total_time session_count last_played daily_stats =
      Except.ok db') :
    get_today_playtime db' gid today = Except.ok (firstPlaytime daily_stats today) ∧
    (∀ s, daily_stats.find? (fun x => x.date = today) = some s →
      get_today_playtime db' gid today = Except.ok s.playtime) ∧
    ((∀ s ∈ daily_stats, s.date ≠ today) →
      get_today_playtime db' gid today = Except.ok 0) ∧
    (∀ (dbq : StatsDb) (g : Int) (td : String), findById dbq g = none →
      get_today_playtime dbq g td = Except.ok 0) ∧
    (∀ (dbq : StatsDb) (g : Int) (td : String) (e : String),
      get_today_playtime dbq g td = Except.error e →
      ∃ r raw, findById dbq g = some r ∧
        r.daily_stats = some (DailyPayload.malformed raw)) := by
  have hmain := update_statistics_findById db gid total_time session_count
    last_played daily_stats db' h
  refine ⟨?_, ?_, ?_, ?_, ?_⟩
  · simp [get_today_playtime, get_statistics, hmain, parse_daily_stats]
  · intro s hs
    simp [get_today_playtime, get_statistics, hmain, parse_daily_stats,
      firstPlaytime, hs]
  · intro hnone
    have : daily_stats.find? (fun x => x.date = today) = none := by
      rw [List.find?_eq_none]
      intro x hx
      simpa using hnone x hx
    simp [get_today_playtime, get_statistics, hmain, parse_daily_stats,
      firstPlaytime, this]
  · intro dbq g td hq
    simp [get_today_playtime, get_statistics, hq]
  · intro dbq g td e he
    unfold get_today_playtime at he
    cases hq : get_statistics dbq g with
    | none => rw [hq] at he; cases he
    | some r =>
        rw [hq] at he
        cases hd : r.daily_stats with
        | none => simp [hd] at he
        | some payload =>
            cases payload with
            | json stats => simp [hd, parse_daily_stats] at he
            | malformed raw => exact ⟨r, raw, hq, hd⟩

/-- Witness for C9 at the claim's example scenario: after
`update_statistics(1, 120, 2, 1700000000, [(2024-01-01,60),(2024-01-02,60)])`,
the query for 2024-01-02 yields 60 and the one for 2024-01-03 yields 0. -/
theorem get_today_playtime_spec_witness :
    get_today_playtime [GameStatisticsRow.mk 1 (some 120) (some 2) (some 1700000000)
        (some (DailyPayload.json
          [DailyStats.mk "2024-01-01" 60, DailyStats.mk "2024-01-02" 60]))]
      1 "2024-01-02" = Except.ok 60 ∧
    get_today_playtime [GameStatisticsRow.mk 1 (some 120) (some 2) (some 1700000000)
        (some (DailyPayload.json
          [DailyStats.mk "2024-01-01" 60, DailyStats.mk "2024-01-02" 60]))]
      1 "2024-01-03" = Except.ok 0 :=
  ⟨(get_today_playtime_spec [] 1 120 2 (some 1700000000)
      [DailyStats.mk "2024-01-01" 60, DailyStats.mk "2024-01-02" 60] _
      "2024-01-02" rfl).1,
   (get_today_playtime_spec [] 1 120 2 (some 1700000000)
      [DailyStats.mk "2024-01-01" 60, DailyStats.mk "2024-01-02" 60] _
      "2024-01-03" rfl).1⟩

/-! ## Claim C4 -/

/-- C4 counterexample: on a host whose path-separator convention is '/'
(POSIX — the code base ships a Linux branch elsewhere in utils/fs.rs),
the file stored under the host-convention name a/b exists, yet
`delete_savedata_backup` reports "backup not found": the code rewrote the
path to a\b, i.e. it normalizes to the Windows convention, not to the
host's. -/
theorem delete_savedata_backup_host_normalization_cex :
    delete_savedata_backup [['a', '/', 'b']] ['a', '/', 'b'] =
      ([['a', '/', 'b']], Except.error "备份文件不存在") ∧
    normalizeToHostSep '/' ['a', '/', 'b'] = ['a', '/', 'b'] ∧
    (['a', '/', 'b'] : CharPath) ∈ ([['a', '/', 'b']] : DeleteFs) ∧
    normalizeSeparators ['a', '/', 'b'] = ['a', '\\', 'b'] ∧
    (['a', '\\', 'b'] : CharPath) ≠ ['a', '/', 'b'] :=
  ⟨rfl, by decide, by decide, by decide, by decide⟩

/-- C4 (amended): `delete_savedata_backup` normalizes path separators to
the Windows backslash convention unconditionally — every '/' becomes '\\'
regardless of the platform the process runs on — and performs the
existence check and the removal on that backslash-normalized path. -/
theorem delete_savedata_backup_normalizes_to_backslash (fs : DeleteFs)
    (backup_file_path : CharPath) :
    normalizeSeparators backup_file_path =
      normalizeToHostSep '\\' backup_file_path ∧
    delete_savedata_backup fs backup_file_path =
      deleteNormalizedBackup fs (normalizeToHostSep '\\' backup_file_path) := by
  have hnorm : ∀ p : CharPath,
      normalizeSeparators p = normalizeToHostSep '\\' p := by
    intro p
    induction p with
    | nil => rfl
    | cons c rest ih =>
        by_cases hc : c = '/'
        · simp [normalizeSeparators, normalizeToHostSep, hc, ih]
        · by_cases hb : c = '\\'
          · simp [normalizeSeparators, normalizeToHostSep, hc, hb, ih]
          · simp [normalizeSeparators, normalizeToHostSep, hc, hb, ih]
  refine ⟨hnorm backup_file_path, ?_⟩
  unfold delete_savedata_backup deleteNormalizedBackup
  rw [hnorm backup_file_path]

/-! ## Claim C5 -/

/-- C5: `delete_savedata_backup` on a path whose normalized form does not
exist fails with the backup-not-found error and changes nothing; on a
path whose normalized form exists, it succeeds and the file is gone
afterwards. -/
theorem delete_savedata_backup_exists_spec (fs : DeleteFs)
    (backup_file_path : CharPath) :
    (normalizeSeparators backup_file_path ∉ fs →
      delete_savedata_backup fs backup_file_path =
        (fs, Except.error "备份文件不存在")) ∧
    (normalizeSeparators backup_file_path ∈ fs →
      (delete_savedata_backup fs backup_file_path).2 = Except.ok () ∧
      normalizeSeparators backup_file_path ∉
        (delete_savedata_backup fs backup_file_path).1) := by
  constructor
  · intro hmem
    unfold delete_savedata_backup
    rw [if_neg hmem]
  · intro hmem
    unfold delete_savedata_backup
    rw [if_pos hmem]
    refine ⟨rfl, ?_⟩
    intro hin
    rcases List.mem_filter.mp hin with ⟨-, hne⟩
    simp at hne

/-- Witness for C5: deleting the existing normalized file a\b via the
forward-slash spelling a/b succeeds and removes it; deleting from an
empty filesystem fails with the backup-not-found error. -/
theorem delete_savedata_backup_exists_spec_witness :
    ((delete_savedata_backup [['a', '\\', 'b']] ['a', '/', 'b']).2 = Except.ok () ∧
      normalizeSeparators ['a', '/', 'b'] ∉
        (delete_savedata_backup [['a', '\\', 'b']] ['a', '/', 'b']).1) ∧
    delete_savedata_backup [] ['a', '/', 'b'] =
      ([], Except.error "备份文件不存在") :=
  ⟨(delete_savedata_backup_exists_spec [['a', '\\', 'b']] ['a', '/', 'b']).2
      (by decide),
   (delete_savedata_backup_exists_spec [] ['a', '/', 'b']).1 (by decide)⟩

/-! ## Claim C6 -/

/-- C6: when the source path does not exist or is not a directory,
`create_savedata_backup` fails with one of the two source-invalid errors
and leaves the filesystem completely untouched — in particular no
directory beyond (at most) the per-game backup directory is created and
no archive file is written, since the validation precedes every write. -/
theorem create_savedata_backup_source_invalid (fs : BackupFs) (game_id : Int)
    (source_path backup_root_dir : FsPath) (now_ts : Int) (now_fmt : String)
    (o : CreateOracle)
    (h : fs.existsPath source_path = false ∨ fs.isDir source_path = false) :
    (create_savedata_backup fs game_id source_path backup_root_dir now_ts
        now_fmt o).1 = fs ∧
    ((create_savedata_backup fs game_id source_path backup_root_dir now_ts
        now_fmt o).2 = Except.error "源存档文件夹不存在" ∨
     (create_savedata_backup fs game_id source_path backup_root_dir now_ts
        now_fmt o).2 = Except.error "源路径必须是一个文件夹") := by
  unfold create_savedata_backup
  by_cases h1 : fs.existsPath source_path = true
  · have h2 : fs.isDir source_path = false := by
      rcases h with h | h
      · rw [h1] at h; cases h
      · exact h
    rw [if_neg (by simp [h1]), if_pos (by simp [h2])]
    exact ⟨rfl, Or.inr rfl⟩
  · rw [if_pos (by simpa using h1)]
    exact ⟨rfl, Or.inl rfl⟩

/-- Witness for C6: on an empty filesystem the source ./save does not
exist, and the call fails source-invalid leaving the filesystem empty. -/
theorem create_savedata_backup_source_invalid_witness :
    (create_savedata_backup (BackupFs.mk [] []) 7 ["save"] ["backups"] 0
        "20240101_000000" (CreateOracle.mk none (Except.ok 3))).1 =
      BackupFs.mk [] [] ∧
    ((create_savedata_backup (BackupFs.mk [] []) 7 ["save"] ["backups"] 0
        "20240101_000000" (CreateOracle.mk none (Except.ok 3))).2 =
      Except.error "源存档文件夹不存在" ∨
     (create_savedata_backup (BackupFs.mk [] []) 7 ["save"] ["backups"] 0
        "20240101_000000" (CreateOracle.mk none (Except.ok 3))).2 =
      Except.error "源路径必须是一个文件夹") :=
  create_savedata_backup_source_invalid (BackupFs.mk [] []) 7 ["save"]
    ["backups"] 0 "20240101_000000" (CreateOracle.mk none (Except.ok 3))
    (Or.inl (by decide))

/-! ## Claim C3 -/

/-- C3 counterexample: with a non-blank savedata root override
D:/saves stored in the user settings, `get_savedata_backup_path`
returns D:/saves/backups — the fixed `backups` suffix is joined onto the
override too, so the override is not used verbatim. -/
theorem get_savedata_backup_path_override_cex :
    get_savedata_backup_path PathCache.empty
      (AppHandle.mk (Except.ok ["C:", "app"]) (Except.ok ["C:", "AppData"])) []
      (some (UserRow.mk none (some "D:/saves"))) =
      (PathCache.mk none (some ["D:/saves", "backups"]),
       Except.ok ["D:/saves", "backups"]) ∧
    (["D:/saves", "backups"] : FsPath) ≠ ["D:/saves"] :=
  ⟨rfl, by decide⟩

/-- C3 (amended): on a cache miss, a non-empty non-whitespace savedata
root override resolves to the override joined with the fixed `backups`
suffix (the suffix is joined in both branches); with no effective override
the result is the mode-based default `get_base_data_dir()/backups`. -/
theorem get_savedata_backup_path_resolution (app : AppHandle) (fs : PathFs)
    (user : Option UserRow) :
    (∀ custom, get_save_root_path_from_db user = some custom →
      (get_savedata_backup_path PathCache.empty app fs user).2 =
        Except.ok ([custom] ++ ["backups"])) ∧
    (get_save_root_path_from_db user = none →
      (get_savedata_backup_path PathCache.empty app fs user).2 =
        get_default_savedata_backup_path app fs) ∧
    (∀ base, get_base_data_dir app fs = Except.ok base →
      get_default_savedata_backup_path app fs = Except.ok (base ++ ["backups"])) := by
  refine ⟨?_, ?_, ?_⟩
  · intro custom hc
    unfold get_savedata_backup_path
    simp [PathCache.empty, hc]
  · intro hc
    unfold get_savedata_backup_path
    simp only [PathCache.empty, hc]
    cases hd : get_default_savedata_backup_path app fs with
    | ok p => simp [hd]
    | error e => simp [hd]
  · intro base hb
    unfold get_default_savedata_backup_path
    rw [hb]

/-- Witness for C3's amended theorem: the override D:/saves resolves to
D:/saves/backups, a blank ("   ") override falls back to the default, and
a portable base C:/app/resources yields the default
C:/app/resources/backups. -/
theorem get_savedata_backup_path_resolution_witness :
    ((get_savedata_backup_path PathCache.empty
        (AppHandle.mk (Except.ok ["C:", "app"]) (Except.ok ["C:", "AppData"])) []
        (some (UserRow.mk none (some "D:/saves")))).2 =
      Except.ok (["D:/saves"] ++ ["backups"])) ∧
    ((get_savedata_backup_path PathCache.empty
        (AppHandle.mk (Except.ok ["C:", "app"]) (Except.ok ["C:", "AppData"])) []
        (some (UserRow.mk none (some "   ")))).2 =
      get_default_savedata_backup_path
        (AppHandle.mk (Except.ok ["C:", "app"]) (Except.ok ["C:", "AppData"])) []) :=
  ⟨(get_savedata_backup_path_resolution
      (AppHandle.mk (Except.ok ["C:", "app"]) (Except.ok ["C:", "AppData"])) []
      (some (UserRow.mk none (some "D:/saves")))).1 "D:/saves" rfl,
   (get_savedata_backup_path_resolution
      (AppHandle.mk (Except.ok ["C:", "app"]) (Except.ok ["C:", "AppData"])) []
      (some (UserRow.mk none (some "   ")))).2.1 rfl⟩

/-! ## Claim C7 -/

/-- C7 counterexample: with the portable marker present
(C:/app/resources/data plus the database file), `get_base_data_dir`
returns the portable base C:/app/resources; after the marker is removed
from the filesystem — no `clear_cache` in between — the very same call
returns the standard app-data directory.  `get_base_data_dir` re-runs the
marker probe on every call; only the resolved backup paths are cached. -/
theorem get_base_data_dir_not_stable_cex :
    is_portable_mode
      (AppHandle.mk (Except.ok ["C:", "app"]) (Except.ok ["C:", "Users", "AppData"]))
      [["C:", "app", "resources", "data"],
       ["C:", "app", "resources", "data", "reina_manager.db"]] = true ∧
    get_base_data_dir
      (AppHandle.mk (Except.ok ["C:", "app"]) (Except.ok ["C:", "Users", "AppData"]))
      [["C:", "app", "resources", "data"],
       ["C:", "app", "resources", "data", "reina_manager.db"]] =
      Except.ok ["C:", "app", "resources"] ∧
    get_base_data_dir
      (AppHandle.mk (Except.ok ["C:", "app"]) (Except.ok ["C:", "Users", "AppData"]))
      [] = Except.ok ["C:", "Users", "AppData"] ∧
    (["C:", "app", "resources"] : FsPath) ≠ ["C:", "Users", "AppData"] :=
  ⟨by decide, rfl, rfl, by decide⟩

/-- C7 (amended): the process-lifetime stability lives in the
`PathManager` cache, not in `get_base_data_dir`: once
`get_savedata_backup_path` has resolved a path, every later call returns
the same path and leaves the cache unchanged regardless of filesystem or
settings changes, until `clear_cache` resets both entries;
`get_base_data_dir` itself re-evaluates the portable marker on every
call. -/
theorem get_savedata_backup_path_cache_stable :
    (∀ (cache : PathCache) (app : AppHandle) (fs : PathFs)
        (user : Option UserRow) (p : FsPath),
      cache.savedata_backup_path = some p →
      get_savedata_backup_path cache app fs user = (cache, Except.ok p)) ∧
    (∀ (cache cache1 : PathCache) (app app2 : AppHandle) (fs fs2 : PathFs)
        (user user2 : Option UserRow) (p : FsPath),
      get_savedata_backup_path cache app fs user = (cache1, Except.ok p) →
      get_savedata_backup_path cache1 app2 fs2 user2 = (cache1, Except.ok p)) ∧
    (∀ cache : PathCache, (clear_cache cache).savedata_backup_path = none) := by
  have hit : ∀ (cache : PathCache) (app : AppHandle) (fs : PathFs)
      (user : Option UserRow) (p : FsPath),
      cache.savedata_backup_path = some p →
      get_savedata_backup_path cache app fs user = (cache, Except.ok p) := by
    intro cache app fs user p hp
    unfold get_savedata_backup_path
    rw [hp]
  refine ⟨hit, ?_, fun _ => rfl⟩
  intro cache cache1 app app2 fs fs2 user user2 p h
  have hstored : cache1.savedata_backup_path = some p := by
    unfold get_savedata_backup_path at h
    cases hc : cache.savedata_backup_path with
    | some q =>
        rw [hc] at h
        have h' : (cache, (Except.ok q : Except String FsPath)) =
            (cache1, Except.ok p) := h
        injection h' with h1 h2
        injection h2 with h3
        rw [← h1, hc]
        exact congrArg some h3
    | none =>
        rw [hc] at h
        cases hu : get_save_root_path_from_db user with
        | some custom =>
            rw [hu] at h
            have h' : (PathCache.mk cache.db_backup_path
                  (some ([custom] ++ ["backups"])),
                (Except.ok ([custom] ++ ["backups"]) : Except String FsPath)) =
                (cache1, Except.ok p) := h
            injection h' with h1 h2
            injection h2 with h3
            rw [← h1]
            exact congrArg some h3
        | none =>
            rw [hu] at h
            cases hd : get_default_savedata_backup_path app fs with
            | ok q =>
                rw [hd] at h
                have h' : (PathCache.mk cache.db_backup_path (some q),
                    (Except.ok q : Except String FsPath)) =
                    (cache1, Except.ok p) := h
                injection h' with h1 h2
                injection h2 with h3
                rw [← h1]
                exact congrArg some h3
            | error e =>
                rw [hd] at h
                have h' : (cache, (Except.error e : Except String FsPath)) =
                    (cache1, Except.ok p) := h
                injection h' with h1 h2
                simp at h2
  exact hit cache1 app2 fs2 user2 p hstored

/-- Witness for C7's amended theorem: a cache that already resolved the
path X returns X unchanged even on an empty filesystem, and a first call
in the portable layout caches its result so that a second call after the
portable marker disappeared still returns the portable path. -/
theorem get_savedata_backup_path_cache_stable_witness :
    get_savedata_backup_path (PathCache.mk none (some ["X"]))
      (AppHandle.mk (Except.ok ["C:", "app"]) (Except.ok ["C:", "AppData"])) []
      none =
      (PathCache.mk none (some ["X"]), Except.ok ["X"]) ∧
    get_savedata_backup_path
      (PathCache.mk none (some ["C:", "app", "resources", "backups"]))
      (AppHandle.mk (Except.ok ["C:", "app"]) (Except.ok ["C:", "AppData"])) []
      none =
      (PathCache.mk none (some ["C:", "app", "resources", "backups"]),
       Except.ok ["C:", "app", "resources", "backups"]) :=
  ⟨(get_savedata_backup_path_cache_stable).1
      (PathCache.mk none (some ["X"]))
      (AppHandle.mk (Except.ok ["C:", "app"]) (Except.ok ["C:", "AppData"])) []
      none ["X"] rfl,
   (get_savedata_backup_path_cache_stable).2.1
      (PathCache.mk none none)
      (PathCache.mk none (some ["C:", "app", "resources", "backups"]))
      (AppHandle.mk (Except.ok ["C:", "app"]) (Except.ok ["C:", "AppData"]))
      (AppHandle.mk (Except.ok ["C:", "app"]) (Except.ok ["C:", "AppData"]))
      [["C:", "app", "resources", "data"],
       ["C:", "app", "resources", "data", "reina_manager.db"]]
      [] none none ["C:", "app", "resources", "backups"] rfl⟩

/-! ## Claim C8 -/

/-- A realistic filesystem state: every existing path's parent exists
(the root, the empty path, always exists). -/
def moveWf (fs : MoveFs) : Prop :=
  ∀ p ∈ fs, moveExists fs p.dropLast = true

instance (fs : MoveFs) : Decidable (moveWf fs) := by
  unfold moveWf
  infer_instance

/-- C8 counterexample: when the destination b already exists but the old
folder a does not, `move_backup_folder` does not fail with the
destination-exists outcome — the missing-source no-op check fires first
and the call reports success.  The claim's "always fails" over every pair
with an existing destination is therefore false. -/
theorem move_backup_folder_dest_exists_cex :
    moveExists [["b"]] ["b"] = true ∧
    moveExists [["b"]] ["a"] = false ∧
    move_backup_folder [["b"]] ["a"] ["b"] (MoveOracle.mk none none none none) =
      ([["b"]], Except.ok (MoveResult.mk true "旧备份文件夹不存在，无需移动")) ∧
    (MoveResult.mk true "旧备份文件夹不存在，无需移动").success = true :=
  ⟨by decide, by decide, rfl, rfl⟩

/-- C8 (amended): on a well-formed filesystem, when the old folder exists
and the destination also exists, `move_backup_folder` reports the
destination-exists failure in-band and leaves the filesystem (both trees)
unmodified; when the old folder does not exist the call is a no-op
success — even if the destination exists. -/
theorem move_backup_folder_dest_exists_spec :
    (∀ (fs : MoveFs) (old_path new_path : FsPath) (o : MoveOracle),
      moveWf fs → moveExists fs old_path = true → moveExists fs new_path = true →
      move_backup_folder fs old_path new_path o =
        (fs, Except.ok (MoveResult.mk false "目标位置已存在备份文件夹，请手动处理"))) ∧
    (∀ (fs : MoveFs) (old_path new_path : FsPath) (o : MoveOracle),
      moveExists fs old_path = false →
      move_backup_folder fs old_path new_path o =
        (fs, Except.ok (MoveResult.mk true "旧备份文件夹不存在，无需移动"))) := by
  constructor
  · intro fs old_path new_path o hwf hold hnew
    have hparent : moveExists fs new_path.dropLast = true := by
      unfold moveExists at hnew
      rcases Bool.or_eq_true_iff.mp hnew with hempty | hmem
      · cases new_path with
        | nil => simp [moveExists]
        | cons a as_ => simp [List.isEmpty] at hempty
      · exact hwf new_path (by simpa using hmem)
    have hstep : moveCreateParent fs new_path.dropLast o.mkparent_result =
        (fs, none) := by
      unfold moveCreateParent
      rw [if_neg (by simp [hparent])]
    unfold move_backup_folder
    rw [if_neg (by simp [hold]), hstep]
    dsimp only
    rw [if_pos hnew]
  · intro fs old_path new_path o hold
    unfold move_backup_folder
    rw [if_pos (by simp [hold])]

/-- Witness for C8's amended theorem on the concrete filesystem {a, b}:
moving a onto the existing b fails in-band with the destination-exists
message and leaves the filesystem untouched; moving the absent c is a
no-op success. -/
theorem move_backup_folder_dest_exists_spec_witness :
    move_backup_folder [["a"], ["b"]] ["a"] ["b"]
      (MoveOracle.mk none none none none) =
      ([["a"], ["b"]],
       Except.ok (MoveResult.mk false "目标位置已存在备份文件夹，请手动处理")) ∧
    move_backup_folder [["a"], ["b"]] ["c"] ["b"]
      (MoveOracle.mk none none none none) =
      ([["a"], ["b"]],
       Except.ok (MoveResult.mk true "旧备份文件夹不存在，无需移动")) :=
  ⟨move_backup_folder_dest_exists_spec.1 [["a"], ["b"]] ["a"] ["b"]
      (MoveOracle.mk none none none none) (by decide) (by decide) (by decide),
   move_backup_folder_dest_exists_spec.2 [["a"], ["b"]] ["c"] ["b"]
      (MoveOracle.mk none none none none) (by decide)⟩

/-! ## Claim C10 -/

/-- C10: `move_backup_folder` never uses the error side of its declared
`Result` type: for every filesystem state, every pair of paths and every
outcome of the effectful steps, the call returns `Ok` carrying an in-band
`MoveResult`; all failures are reported through `success = false`. -/
theorem move_backup_folder_never_errs (fs : MoveFs)
    (old_path new_path : FsPath) (o : MoveOracle) :
    ∃ fs' r, move_backup_folder fs old_path new_path o =
      (fs', Except.ok r) := by
  unfold move_backup_folder
  by_cases h1 : moveExists fs old_path = true
  · rw [if_neg (by simp [h1])]
    cases hstep : moveCreateParent fs new_path.dropLast o.mkparent_result with
    | mk fs1 msg =>
        cases msg with
        | some e => exact ⟨_, _, rfl⟩
        | none =>
            dsimp only
            by_cases h3 : moveExists fs1 new_path = true
            · rw [if_pos h3]
              exact ⟨_, _, rfl⟩
            · rw [if_neg h3]
              cases o.rename_result with
              | none => exact ⟨_, _, rfl⟩
              | some e =>
                  cases o.copy_result with
                  | some e2 => exact ⟨_, _, rfl⟩
                  | none =>
                      cases o.remove_result with
                      | none => exact ⟨_, _, rfl⟩
                      | some e3 => exact ⟨_, _, rfl⟩
  · rw [if_pos (by simpa using h1)]
    exact ⟨_, _, rfl⟩

/-! ## Claim C1 -/

theorem archiveJoin_assoc (pre name s : String) (hname : name ≠ "") :
    archiveJoin (archiveJoin pre name) s = archiveJoin pre (name ++ "/" ++ s) := by
  unfold archiveJoin
  by_cases hp : pre = ""
  · rw [if_pos hp, if_pos hp, if_neg hname]
  · rw [if_neg hp, if_neg hp]
    have hlen : (pre ++ "/" ++ name).length = pre.length + 1 + name.length := by
      simp [String.length_append]
      rfl
    have hne : pre ++ "/" ++ name ≠ "" := by
      intro hcon
      have := congrArg String.length hcon
      rw [hlen] at this
      simp at this
    rw [if_neg hne]
    simp [String.append_assoc]

theorem renderPosix_cons (name : String) (p : List String) (hp : p ≠ []) :
    renderPosix (name :: p) = name ++ "/" ++ renderPosix p := by
  cases p with
  | nil => exact absurd rfl hp
  | cons a as_ => rfl

theorem relFiles_path_ne_nil (l : DirListing) :
    ∀ pc ∈ relFiles l, pc.1 ≠ [] := by
  induction l with
  | nil => intro pc hpc; simp [relFiles] at hpc
  | consFile name content rest ih =>
      intro pc hpc
      rcases List.mem_cons.mp hpc with h | h
      · subst h; simp
      · exact ih pc h
  | consDir name sub rest ihsub ihrest =>
      intro pc hpc
      rcases List.mem_append.mp hpc with h | h
      · rcases List.mem_map.mp h with ⟨qc, _, hq⟩
        rw [← hq]
        simp
      · exact ihrest pc h

theorem add_directory_to_archive_eq_relFiles (l : DirListing) (pre : String)
    (h : namesNonempty l = true) :
    add_directory_to_archive l pre =
      (relFiles l).map (fun pc => (archiveJoin pre (renderPosix pc.1), pc.2)) := by
  induction l generalizing pre with
  | nil => rfl
  | consFile name content rest ih =>
      have h' : namesNonempty rest = true := by
        simp [namesNonempty] at h
        exact h.2
      simp only [add_directory_to_archive, relFiles, List.map_cons]
      rw [ih pre h']
      rfl
  | consDir name sub rest ihsub ihrest =>
      have hname : name ≠ "" := by
        simp [namesNonempty] at h
        exact h.1.1
      have hsub : namesNonempty sub = true := by
        simp [namesNonempty] at h
        exact h.1.2
      have hrest : namesNonempty rest = true := by
        simp [namesNonempty] at h
        exact h.2
      simp only [add_directory_to_archive, relFiles, List.map_append, List.map_map]
      rw [ihsub (archiveJoin pre name) hsub, ihrest pre hrest]
      congr 1
      apply List.map_congr_left
      intro pc hpc
      have hne := relFiles_path_ne_nil sub pc hpc
      simp only [Function.comp]
      rw [renderPosix_cons name pc.1 hne,
        archiveJoin_assoc pre name (renderPosix pc.1) hname]

/-- C1: for every source directory tree (with the nonempty entry names a
real `read_dir` produces), the container written by `create_7z_archive`
holds exactly the regular files under the tree: entry for entry, the
archive names are the POSIX '/'-joined relative paths from the source
root and the contents are the files' bytes; empty directories contribute
nothing.  Extracting the container therefore reproduces the tree's file
set byte for byte. -/
theorem create_7z_archive_roundtrip (source_dir : DirListing)
    (h : namesNonempty source_dir = true) :
    create_7z_archive_entries source_dir =
      (relFiles source_dir).map (fun pc => (renderPosix pc.1, pc.2)) := by
  unfold create_7z_archive_entries
  rw [add_directory_to_archive_eq_relFiles source_dir "" h]
  apply List.map_congr_left
  intro pc hpc
  rw [archiveJoin]
  simp

/-- Witness for C1 at the spec's example tree: ./save containing a.txt
(3 bytes) and sub/b.txt (5 bytes) archives to exactly the entries
a.txt and sub/b.txt with those bytes. -/
theorem create_7z_archive_roundtrip_witness :
    namesNonempty (DirListing.consFile "a.txt" [97, 98, 99]
      (DirListing.consDir "sub"
        (DirListing.consFile "b.txt" [1, 2, 3, 4, 5] DirListing.nil)
        DirListing.nil)) = true ∧
    create_7z_archive_entries (DirListing.consFile "a.txt" [97, 98, 99]
      (DirListing.consDir "sub"
        (DirListing.consFile "b.txt" [1, 2, 3, 4, 5] DirListing.nil)
        DirListing.nil)) =
      [("a.txt", [97, 98, 99]), ("sub/b.txt", [1, 2, 3, 4, 5])] :=
  ⟨by decide,
   (create_7z_archive_roundtrip (DirListing.consFile "a.txt" [97, 98, 99]
      (DirListing.consDir "sub"
        (DirListing.consFile "b.txt" [1, 2, 3, 4, 5] DirListing.nil)
        DirListing.nil)) (by decide)).trans (by decide)⟩

end ReinaManager
